import Mathlib

/-!
Shallow embedding of the ByteBite ad system's ad-selection engine
(`src/main.py`) and playback controller (`src/ad_display.py`).

Numeric scores and timestamps are modelled with `ℚ` (the Python code uses
floats, but every computation the claims depend on is exact arithmetic on
small decimal values, and the summation order of `sum` matches the
accumulation order of the selection loop, so rationals are faithful).
The single call to `random.uniform(0, total)` is modelled by passing the
drawn value `r` as an explicit argument.

Python string operations (`lower`, `split`, `strip`, `startswith`,
`join`) are modelled by structurally recursive functions on the
character list of a `String`, so that concrete instances evaluate by
`decide`. All strings involved are ASCII, where `Char.toLower` agrees
with Python's `str.lower`.
-/

namespace ByteBite

/-! ## Python string primitives -/

/-- The empty string. -/
def emptyStr : String := ""

/-- Python `str.lower()` (ASCII). -/
def lowerStr (s : String) : String := ⟨s.data.map Char.toLower⟩

/-- Python `str.startswith(pre)`. -/
def pyStartsWith (s pre : String) : Bool := pre.data.isPrefixOf s.data

/-- Worker for `pySplit`: split a character list at every occurrence of
`sep`, `acc` holding the current chunk reversed. -/
def splitCharAux (sep : Char) : List Char → List Char → List (List Char)
  | [], acc => [acc.reverse]
  | c :: cs, acc =>
    if c = sep then acc.reverse :: splitCharAux sep cs []
    else splitCharAux sep cs (c :: acc)

/-- Python `str.split(sep)` for a one-character separator: the resulting
list is never empty, and splitting the empty string yields `[""]`. -/
def pySplit (sep : Char) (s : String) : List String :=
  (splitCharAux sep s.data []).map (fun l => ⟨l⟩)

/-- Python `str.strip()`: drop whitespace from both ends. -/
def pyStrip (s : String) : String :=
  ⟨((s.data.dropWhile Char.isWhitespace).reverse.dropWhile Char.isWhitespace).reverse⟩

/-- Worker for `pyJoin`. -/
def joinCharAux (sep : Char) : List (List Char) → List Char
  | [] => []
  | [l] => l
  | l :: ls => l ++ sep :: joinCharAux sep ls

/-- Python `sep.join(parts)` for a one-character separator. -/
def pyJoin (sep : Char) (parts : List String) : String :=
  ⟨joinCharAux sep (parts.map String.data)⟩

/-! ## Data model (`src/main.py`) -/

/-- One row of the `media` table (see `CREATE TABLE media` and the SELECT in
`pick_weighted_media`, src/main.py). `mood_target` and `time_of_day_range`
are nullable columns, hence `Option String`; a stored empty string is falsy
in the Python scoring conditions and is handled there. -/
structure MediaAsset where
  media_id : Nat
  customer_id : String
  age_range : String
  gender : String
  file_path : String
  media_type : String
  profit_score : Int
  mood_target : Option String
  time_of_day_range : Option String
  device_id : String
deriving Repr, DecidableEq

/-- One row of the `ad_displays` table, as used by `get_last_display_time`:
only the media id and the timestamp matter. Timestamps are minutes on a
global clock (the code subtracts datetimes and divides by 60). -/
structure PlaybackRecord where
  media_id : Nat
  timestamp : ℚ
deriving Repr, DecidableEq

/-- `get_time_of_day_range` (src/main.py lines 338-347). -/
def get_time_of_day_range (hour : Nat) : String :=
  if 5 ≤ hour ∧ hour < 11 then "morning"
  else if 11 ≤ hour ∧ hour < 17 then "afternoon"
  else if 17 ≤ hour ∧ hour < 21 then "evening"
  else "night"

/-- `get_last_display_time` (src/main.py lines 349-358): the maximum
timestamp among the playback records for `mid`, or `none`. -/
def get_last_display_time (history : List PlaybackRecord) (mid : Nat) : Option ℚ :=
  ((history.filter (fun rec => rec.media_id = mid)).map (fun rec => rec.timestamp)).max?

/-- The SQL filter of `pick_weighted_media` (src/main.py lines 365-378):
rows whose `age_range` and `gender` equal the lowercased event attributes
and whose `device_id` is the current device. -/
def filterCandidates (catalog : List MediaAsset) (age_range gender deviceId : String) :
    List MediaAsset :=
  catalog.filter (fun a =>
    a.age_range = lowerStr age_range ∧ a.gender = lowerStr gender ∧ a.device_id = deviceId)

/-- The score of one candidate before the recency adjustment and the 1.0
floor: `profit_score`, plus 10 for a time-of-day match, plus 1500 for a
mood match (src/main.py lines 389-397). A NULL or empty target column is
falsy in Python and earns no bonus. -/
def preScore (currentTod mood : String) (a : MediaAsset) : ℚ :=
  let s0 : ℚ := (a.profit_score : ℚ)
  let s1 :=
    match a.time_of_day_range with
    | some tod => if ¬ tod = emptyStr ∧ lowerStr tod = currentTod then s0 + 10 else s0
    | none => s0
  match a.mood_target with
  | some mt => if ¬ mt = emptyStr ∧ lowerStr mood = lowerStr mt then s1 + 1500 else s1
  | none => s1

/-- The recency adjustment (src/main.py lines 399-408): no playback record
leaves the score unchanged; a record less than 5 minutes old subtracts 5;
otherwise add `min ((minutes − 5) * 0.1) 30`. -/
def recencyAdjust (now : ℚ) (history : List PlaybackRecord) (mid : Nat) (s : ℚ) : ℚ :=
  match get_last_display_time history mid with
  | none => s
  | some t =>
    let minutesSinceLast := now - t
    if minutesSinceLast < 5 then s - 5
    else s + min ((minutesSinceLast - 5) * (1/10)) 30

/-- `final_score = max(score, 1.0)` (src/main.py line 410). -/
def finalScore (now : ℚ) (currentTod mood : String) (history : List PlaybackRecord)
    (a : MediaAsset) : ℚ :=
  max (recencyAdjust now history a.media_id (preScore currentTod mood a)) 1

/-- The scored candidate list built by the `for` loop of `pick_weighted_media`
(src/main.py lines 386-417), in catalog iteration order. -/
def weightedList (catalog : List MediaAsset) (age_range gender mood deviceId : String)
    (hour : Nat) (now : ℚ) (history : List PlaybackRecord) : List (MediaAsset × ℚ) :=
  (filterCandidates catalog age_range gender deviceId).map
    (fun a => (a, finalScore now (get_time_of_day_range hour) mood history a))

/-- `total = sum(item['score'] for item in weighted_list)` (src/main.py line 419). -/
def totalScore (wl : List (MediaAsset × ℚ)) : ℚ :=
  (wl.map Prod.snd).sum

/-- The roulette-wheel loop of `pick_weighted_media` (src/main.py lines
421-429): walk the weighted list accumulating `upto`, returning the first
item with `upto + score ≥ r`; fall through to `None`. -/
def pickLoop : List (MediaAsset × ℚ) → ℚ → ℚ → Option MediaAsset
  | [], _, _ => none
  | (a, s) :: rest, upto, r =>
    if upto + s ≥ r then some a else pickLoop rest (upto + s) r

/-- `pick_weighted_media` (src/main.py lines 360-429), with the database
read replaced by the in-memory `catalog`/`history`, the wall clock by
`hour`/`now`, and the single `random.uniform(0, total)` draw by `r`.
Returns the `(media_id, customer_id, file_path, media_type)` tuple. -/
def pick_weighted_media (catalog : List MediaAsset) (history : List PlaybackRecord)
    (deviceId : String) (hour : Nat) (now : ℚ) (age_range gender mood : String) (r : ℚ) :
    Option (Nat × String × String × String) :=
  let wl := weightedList catalog age_range gender mood deviceId hour now history
  match wl with
  | [] => none
  | _ =>
    (pickLoop wl 0 r).map (fun a => (a.media_id, a.customer_id, a.file_path, a.media_type))

/-! ## Playback controller (`src/ad_display.py`) -/

/-- The `AdState` constants of src/ad_display.py lines 44-48. -/
inductive AdState where
  | idle
  | fadingIn
  | holding
  | fadingOut
deriving Repr, DecidableEq

/-- The single successor of each stage in the intended linear cycle
Idle → FadingIn → Holding → FadingOut → Idle. -/
def AdState.succ : AdState → AdState
  | .idle => .fadingIn
  | .fadingIn => .holding
  | .holding => .fadingOut
  | .fadingOut => .idle

/-- A pending `(path, media_type)` entry of `ad_queue` (src/ad_display.py). -/
structure AdEntry where
  path : String
  mediaType : String
deriving Repr, DecidableEq

/-- `MAX_QUEUE_SIZE = 5` (src/ad_display.py line 26). -/
def MAX_QUEUE_SIZE : Nat := 5

/-- `FADE_IN_DURATION = 1.0` seconds (src/ad_display.py line 21). -/
def FADE_IN_DURATION : ℚ := 1

/-- `HOLD_DURATION = 2.0` seconds (src/ad_display.py line 22). -/
def HOLD_DURATION : ℚ := 2

/-- `FADE_OUT_DURATION = 1.0` seconds (src/ad_display.py line 23). -/
def FADE_OUT_DURATION : ℚ := 1

/-- The media-type tag attached to `SHOW_IMAGE` queue entries. -/
def imageTag : String := "image"

/-- The media-type tag attached to `SHOW_VIDEO` queue entries. -/
def videoTag : String := "video"

/-- The `SHOW_IMAGE:` command verb prefix. -/
def SHOW_IMAGE_PREFIX : String := "SHOW_IMAGE:"

/-- The `SHOW_VIDEO:` command verb prefix. -/
def SHOW_VIDEO_PREFIX : String := "SHOW_VIDEO:"

/-- The `QUIT` command. -/
def QUIT_CMD : String := "QUIT"

/-- The enqueue step of `handle_client_connection` (src/ad_display.py lines
129-134): append only when the queue holds fewer than `MAX_QUEUE_SIZE`
entries, otherwise leave the queue untouched. -/
def enqueueAd (q : List AdEntry) (e : AdEntry) : List AdEntry :=
  if q.length < MAX_QUEUE_SIZE then q ++ [e] else q

/-- The mutable playback state of src/ad_display.py relevant to the fade
state machine: `current_stage`, `ad_queue`, `is_video`, and whether
`current_media` is set. -/
structure DisplayState where
  stage : AdState
  queue : List AdEntry
  isVideo : Bool
  hasMedia : Bool
deriving Repr, DecidableEq

/-- `start_new_ad` (src/ad_display.py lines 155-194), with the success of
the media load/open passed as `loadOk`. On success the stage becomes
`FADING_IN`; the `except` branches return early with `current_media = None`
and leave the stage unchanged. -/
def start_new_ad (st : DisplayState) (e : AdEntry) (loadOk : Bool) : DisplayState :=
  if loadOk then
    { st with stage := .fadingIn, isVideo := e.mediaType = videoTag, hasMedia := true }
  else
    { st with isVideo := false, hasMedia := false }

/-- One tick of `update_fade` (src/ad_display.py lines 196-234). `elapsed`
is `time.time() - stage_start_time`; `videoAtEnd` is the frame-position
test of the Holding branch; `loadOk` feeds `start_new_ad` when an entry is
popped from Idle. -/
def update_fade (st : DisplayState) (elapsed : ℚ) (videoAtEnd loadOk : Bool) :
    DisplayState :=
  match st.stage with
  | .idle =>
    match st.queue with
    | [] => st
    | e :: rest => start_new_ad { st with queue := rest } e loadOk
  | .fadingIn =>
    if elapsed ≥ FADE_IN_DURATION then { st with stage := .holding } else st
  | .holding =>
    if st.isVideo then
      if videoAtEnd then { st with stage := .fadingOut } else st
    else
      if elapsed ≥ HOLD_DURATION then { st with stage := .fadingOut } else st
  | .fadingOut =>
    if elapsed ≥ FADE_OUT_DURATION then
      { st with stage := .idle, hasMedia := false }
    else st

/-- `path = data.split(":")[-1].strip()` (src/ad_display.py line 126): the
payload extracted by `handle_client_connection` is the LAST `:`-separated
segment of the command string, stripped. -/
def parseCommandPath (data : String) : String :=
  pyStrip ((pySplit (':') data).getLastD emptyStr)

/-- The payload as §4.3 of the spec describes it: everything after the
FIRST `:` of the command string (modelled from the spec, for comparison
with `parseCommandPath`). -/
def specPayloadAfterFirstColon (data : String) : String :=
  pyJoin (':') ((pySplit (':') data).tail)

/-- Externally visible effects of the playback process, used to express
what the command handler and the main-loop shutdown path do. -/
inductive DisplayAction where
  | enqueue (path mediaType : String)
  | releaseVideo
  | pygameQuit
  | sysExit
deriving Repr, DecidableEq

/-- `handle_client_connection` (src/ad_display.py lines 119-137) as an
effect trace: `queueLen` is the current queue length and `fileExists`
models `os.path.isfile`. The `QUIT` branch (lines 135-137) calls
`pygame.quit()` and `sys.exit(0)` and nothing else. -/
def handle_client_connection (data : String) (queueLen : Nat)
    (fileExists : String → Bool) : List DisplayAction :=
  if data = emptyStr then []
  else if pyStartsWith data SHOW_IMAGE_PREFIX ∨ pyStartsWith data SHOW_VIDEO_PREFIX then
    let path := parseCommandPath data
    let mediaType := if pyStartsWith data SHOW_IMAGE_PREFIX then imageTag else videoTag
    if fileExists path then
      if queueLen < MAX_QUEUE_SIZE then [.enqueue path mediaType] else []
    else []
  else if data = QUIT_CMD then [.pygameQuit, .sysExit]
  else []

/-- The shutdown path at the end of `main_loop` (src/ad_display.py lines
286-289), reached only when `running` becomes false: release an open video
player, then `pygame.quit()` and `sys.exit(0)`. The `QUIT` network command
does NOT run this path; it runs `handle_client_connection`'s `QUIT`
branch. -/
def main_loop_shutdown (isVideo hasVideoPlayer : Bool) : List DisplayAction :=
  (if isVideo ∧ hasVideoPlayer then [.releaseVideo] else []) ++ [.pygameQuit, .sysExit]

/-! ## Path handling (`store_media` / `play_media`, src/main.py) -/

/-- Resolution of `.` , `..` and empty segments in an absolute path, as
`os.path.abspath` performs it: `..` pops the last kept segment (at the
root it is a no-op). `stack` holds the already-resolved prefix reversed. -/
def normSegsAux : List String → List String → List String
  | stack, [] => stack.reverse
  | stack, seg :: rest =>
    if seg = emptyStr ∨ seg = "." then normSegsAux stack rest
    else if seg = ".." then normSegsAux stack.tail rest
    else normSegsAux (seg :: stack) rest

/-- Normalize a list of path segments (resolve `.`/`..`/empty). -/
def normSegs (segs : List String) : List String := normSegsAux [] segs

/-- The media root: `media_dir = os.path.join(script_dir, 'media')`
(src/main.py line 40), for a deployment with `script_dir = /home/kiosk`. -/
def mediaRootSegs : List String := ["home", "kiosk", "media"]

/-- The media root as the string `store_media` compares against. -/
def mediaRootStr : String := "/home/kiosk/media"

/-- Split an absolute path string into segments. -/
def pathSegs (p : String) : List String :=
  (pySplit ('/') p).filter (fun s => ¬ s = emptyStr)

/-- The containment check of `store_media` (src/main.py line 167):
`abs_file_path.startswith(abs_media_dir)` — a plain string-prefix test. -/
def store_media_accepts (absFilePath : String) : Bool :=
  pyStartsWith absFilePath mediaRootStr

/-- `os.path.relpath(abs_file_path, abs_media_dir)` (src/main.py line 171)
on segment lists: drop the common prefix, then one `..` per remaining
base segment followed by the target's remaining segments. -/
def relpathSegs : List String → List String → List String
  | t :: ts, b :: bs =>
    if b = t then relpathSegs ts bs
    else ((b :: bs).map (fun _ => "..")) ++ (t :: ts)
  | ts, [] => ts
  | [], bs => bs.map (fun _ => "..")

/-- The stored relative path produced by `store_media` for an accepted
absolute path, as a `/`-joined string. -/
def store_media_rel (absFilePath : String) : String :=
  pyJoin ('/') (relpathSegs (pathSegs absFilePath) mediaRootSegs)

/-- `os.path.abspath(os.path.join(media_dir, rel_file_path))`
(src/main.py line 460): append the relative path's segments to the media
root and normalize. -/
def resolveUnderRoot (rel : String) : List String :=
  normSegs (mediaRootSegs ++ pySplit ('/') rel)

/-- A resolved path escapes the media root when the root's segments are
not a prefix of the resolved segments. -/
def escapesRoot (rel : String) : Bool :=
  ¬ mediaRootSegs.isPrefixOf (resolveUnderRoot rel)

/-- `play_media` (src/main.py lines 449-477) as the command it dispatches
to the ad display, or `none`: pick a candidate, resolve its stored path
against the media root, check only EXISTENCE (`os.path.exists`), then send
`SHOW_IMAGE:`/`SHOW_VIDEO:` for supported media types. There is no check
that the resolved path stays inside the media root. -/
def play_media (catalog : List MediaAsset) (history : List PlaybackRecord)
    (deviceId : String) (hour : Nat) (now : ℚ) (age_range gender mood : String) (r : ℚ)
    (fileExists : List String → Bool) : Option String :=
  match pick_weighted_media catalog history deviceId hour now age_range gender mood r with
  | none => none
  | some (_, _, relFilePath, mediaType) =>
    let absSegs := resolveUnderRoot relFilePath
    let absPath := "/" ++ pyJoin ('/') absSegs
    if fileExists absSegs then
      if lowerStr mediaType ∈ ["image/jpg", "image/jpeg", "image/png"] then
        some (SHOW_IMAGE_PREFIX ++ absPath)
      else if lowerStr mediaType ∈ ["video/mp4", "video/avi", "video/mov"] then
        some (SHOW_VIDEO_PREFIX ++ absPath)
      else none
    else none

/-! ## Case-insensitive equality -/

/-- Two strings are case-insensitively equal when they agree after
lowercasing. -/
def caseInsensitiveEq (s t : String) : Prop := lowerStr s = lowerStr t

/-- Cumulative score: the sum of the scores of the first `i + 1` entries of
the weighted list, i.e. the value of `upto + item['score']` when the
selection loop reaches index `i`. -/
def cumScore (wl : List (MediaAsset × ℚ)) (i : Nat) : ℚ :=
  ((wl.take (i + 1)).map Prod.snd).sum

/-! ## Concrete fixtures used by witnesses and counterexamples -/

/-- A device id for concrete instances. -/
def devStr : String := "dev"

/-- An event age range. -/
def age1829 : String := "18-29"

/-- A stored (lowercase) gender value. -/
def femaleStr : String := "female"

/-- The same gender in mixed case, as a demographic event may carry it. -/
def femaleMixedCase : String := "FeMale"

/-- An event mood. -/
def happyStr : String := "happy"

/-- A catalog row matching the fixture event. -/
def sampleAsset : MediaAsset :=
  { media_id := 1, customer_id := "c", age_range := "18-29", gender := "female",
    file_path := "a.jpg", media_type := "image/jpg", profit_score := 5,
    mood_target := none, time_of_day_range := none, device_id := "dev" }

/-- A one-row catalog. -/
def sampleCatalog : List MediaAsset := [sampleAsset]

/-- A command whose absolute-path payload itself contains a colon. -/
def colonCmd : String := "SHOW_IMAGE:/media/a:b.jpg"

/-- The full payload after the first colon of `colonCmd`. -/
def colonPathFull : String := "/media/a:b.jpg"

/-- The last colon-separated segment of `colonCmd`. -/
def colonPathLast : String := "b.jpg"

/-- An absolute path outside the media root that nevertheless passes the
string-prefix containment check of `store_media`. -/
def evilAbsPath : String := "/home/kiosk/media_evil/f.jpg"

/-- The relative path `store_media` computes and stores for `evilAbsPath`. -/
def evilRelPath : String := "../media_evil/f.jpg"

/-- A catalog row whose stored path resolves outside the media root. -/
def evilAsset : MediaAsset :=
  { media_id := 2, customer_id := "c", age_range := "18-29", gender := "female",
    file_path := "../media_evil/f.jpg", media_type := "image/jpg", profit_score := 5,
    mood_target := none, time_of_day_range := none, device_id := "dev" }

/-- The command `play_media` dispatches for `evilAsset`. -/
def evilDispatch : String := "SHOW_IMAGE:/home/kiosk/media_evil/f.jpg"

/-- A candidate with base score exactly at the 1.0 floor (profit 1, no
bonuses). -/
def floorAsset : MediaAsset :=
  { media_id := 3, customer_id := "c", age_range := "18-29", gender := "female",
    file_path := "a.jpg", media_type := "image/jpg", profit_score := 1,
    mood_target := none, time_of_day_range := none, device_id := "dev" }

/-- A candidate with base score above the 1.0 floor (profit 10). -/
def richAsset : MediaAsset :=
  { media_id := 4, customer_id := "c", age_range := "18-29", gender := "female",
    file_path := "a.jpg", media_type := "image/jpg", profit_score := 10,
    mood_target := none, time_of_day_range := none, device_id := "dev" }

/-- A playback history whose most recent record for media 3 is 2 minutes
old at `now = 5`. -/
def floorHistory : List PlaybackRecord := [{ media_id := 3, timestamp := 3 }]

/-- A playback history whose most recent record for media 4 is 2 minutes
old at `now = 5`. -/
def richHistory : List PlaybackRecord := [{ media_id := 4, timestamp := 3 }]

/-- A queue entry for concrete queue scenarios. -/
def sampleEntry : AdEntry := { path := "x.jpg", mediaType := "image" }

/-- A queue already at capacity 5. -/
def fullQueue : List AdEntry :=
  [sampleEntry, sampleEntry, sampleEntry, sampleEntry, sampleEntry]

/-- Six successive enqueue commands. -/
def sixEntries : List AdEntry :=
  [sampleEntry, sampleEntry, sampleEntry, sampleEntry, sampleEntry, sampleEntry]

/-! ## Helper lemmas -/

theorem charToLower_idem (c : Char) : c.toLower.toLower = c.toLower := by
  simp only [Char.toLower]
  by_cases h : 65 ≤ c.toNat ∧ c.toNat ≤ 90
  · rw [if_pos h]
    have hv : (c.toNat + 32).isValidChar := by
      unfold Nat.isValidChar
      left
      omega
    have ht : (Char.ofNat (c.toNat + 32)).toNat = c.toNat + 32 := by
      rw [Char.ofNat, dif_pos hv]
      rfl
    rw [ht, if_neg]
    omega
  · rw [if_neg h, if_neg h]

theorem lowerStr_idem (s : String) : lowerStr (lowerStr s) = lowerStr s := by
  simp only [lowerStr]
  refine congrArg String.mk ?_
  induction s.data with
  | nil => rfl
  | cons c cs ih => simp [ih, charToLower_idem]

theorem weightedList_map_fst (catalog : List MediaAsset)
    (age_range gender mood deviceId : String) (hour : Nat) (now : ℚ)
    (history : List PlaybackRecord) :
    (weightedList catalog age_range gender mood deviceId hour now history).map Prod.fst
      = filterCandidates catalog age_range gender deviceId := by
  simp only [weightedList, List.map_map]
  have : (Prod.fst ∘ fun a : MediaAsset =>
      (a, finalScore now (get_time_of_day_range hour) mood history a)) = id := by
    funext a
    rfl
  rw [this, List.map_id]

theorem totalScore_cons (p : MediaAsset × ℚ) (t : List (MediaAsset × ℚ)) :
    totalScore (p :: t) = p.2 + totalScore t := by
  simp [totalScore]

theorem cumScore_cons_zero (p : MediaAsset × ℚ) (t : List (MediaAsset × ℚ)) :
    cumScore (p :: t) 0 = p.2 := by
  simp [cumScore]

theorem cumScore_cons_succ (p : MediaAsset × ℚ) (t : List (MediaAsset × ℚ)) (j : Nat) :
    cumScore (p :: t) (j + 1) = p.2 + cumScore t j := by
  simp [cumScore, List.take_succ_cons]

theorem pickLoop_mem (wl : List (MediaAsset × ℚ)) (u r : ℚ) (a : MediaAsset)
    (h : pickLoop wl u r = some a) : a ∈ wl.map Prod.fst := by
  induction wl generalizing u with
  | nil => simp [pickLoop] at h
  | cons p t ih =>
    obtain ⟨b, s⟩ := p
    simp only [pickLoop] at h
    split at h
    · cases h
      simp
    · simp only [List.map_cons, List.mem_cons]
      exact Or.inr (ih _ h)

theorem pickLoop_isSome (wl : List (MediaAsset × ℚ)) (u r : ℚ) (hne : wl ≠ [])
    (hr : r ≤ u + totalScore wl) : (pickLoop wl u r).isSome := by
  induction wl generalizing u with
  | nil => exact absurd rfl hne
  | cons p t ih =>
    obtain ⟨b, s⟩ := p
    simp only [pickLoop]
    split
    · rfl
    · rename_i hlt
      cases t with
      | nil =>
        exfalso
        apply hlt
        have hts : totalScore [(b, s)] = s := by simp [totalScore]
        rw [hts] at hr
        linarith
      | cons q t2 =>
        apply ih _ (by simp)
        rw [totalScore_cons] at hr
        linarith

theorem pickLoop_first_cumulative (wl : List (MediaAsset × ℚ)) (u r : ℚ) (a : MediaAsset) :
    pickLoop wl u r = some a ↔
      ∃ i, (wl.map Prod.fst)[i]? = some a ∧ r ≤ u + cumScore wl i ∧
        ∀ j < i, u + cumScore wl j < r := by
  induction wl generalizing u with
  | nil => simp [pickLoop]
  | cons p t ih =>
    obtain ⟨b, s⟩ := p
    simp only [pickLoop]
    split
    · rename_i hge
      constructor
      · intro hba
        cases hba
        refine ⟨0, by simp, ?_, by omega⟩
        rw [cumScore_cons_zero]
        exact hge
      · rintro ⟨i, hi, hge2, hlt⟩
        cases i with
        | zero =>
          simpa using hi
        | succ j =>
          have h0 := hlt 0 (Nat.succ_pos j)
          rw [cumScore_cons_zero] at h0
          exact absurd hge (not_le.mpr h0)
    · rename_i hltc
      rw [ih]
      constructor
      · rintro ⟨i, hi, hge, hlt⟩
        refine ⟨i + 1, by simpa using hi, ?_, ?_⟩
        · rw [cumScore_cons_succ]
          linarith
        · intro j hj
          cases j with
          | zero =>
            rw [cumScore_cons_zero]
            linarith [not_le.mp hltc]
          | succ k =>
            have := hlt k (by omega)
            rw [cumScore_cons_succ]
            linarith
      · rintro ⟨i, hi, hge, hlt⟩
        cases i with
        | zero =>
          exfalso
          rw [cumScore_cons_zero] at hge
          exact hltc hge
        | succ j =>
          refine ⟨j, by simpa using hi, ?_, ?_⟩
          · rw [cumScore_cons_succ] at hge
            linarith
          · intro k hk
            have := hlt (k + 1) (by omega)
            rw [cumScore_cons_succ] at this
            linarith

theorem enqueueAd_length_le (q : List AdEntry) (e : AdEntry)
    (h : q.length ≤ MAX_QUEUE_SIZE) : (enqueueAd q e).length ≤ MAX_QUEUE_SIZE := by
  unfold enqueueAd
  split
  · rename_i hlt
    simp only [List.length_append, List.length_cons, List.length_nil]
    omega
  · exact h

theorem foldl_enqueueAd_length_le (es : List AdEntry) (q : List AdEntry)
    (h : q.length ≤ MAX_QUEUE_SIZE) :
    (es.foldl enqueueAd q).length ≤ MAX_QUEUE_SIZE := by
  induction es generalizing q with
  | nil => exact h
  | cons e t ih => exact ih _ (enqueueAd_length_le q e h)

/-! ## Claim theorems -/

/-- C1: any asset returned by `pick_weighted_media` comes from the exact
(age_range, gender) filter of the demographic event, scoped to the current
device: its stored age range and gender are case-insensitively equal to the
event's, and its device id is the current device. No candidate outside that
filter is ever returned, since the returned tuple is always the projection
of a member of `filterCandidates`. -/
theorem picked_asset_matches_event_filter
    (catalog : List MediaAsset) (history : List PlaybackRecord)
    (deviceId : String) (hour : Nat) (now : ℚ) (age_range gender mood : String)
    (r : ℚ) (mid : Nat) (cust fp mt : String)
    (h : pick_weighted_media catalog history deviceId hour now age_range gender mood r
      = some (mid, cust, fp, mt)) :
    ∃ a ∈ filterCandidates catalog age_range gender deviceId,
      a ∈ catalog ∧ a.media_id = mid ∧ a.customer_id = cust ∧ a.file_path = fp ∧
      a.media_type = mt ∧ caseInsensitiveEq a.age_range age_range ∧
      caseInsensitiveEq a.gender gender ∧ a.device_id = deviceId := by
  cases hw : weightedList catalog age_range gender mood deviceId hour now history with
  | nil =>
    simp only [pick_weighted_media, hw] at h
    exact Option.noConfusion h
  | cons p t =>
    simp only [pick_weighted_media, hw] at h
    obtain ⟨a, ha, htup⟩ := Option.map_eq_some'.mp h
    have hmem : a ∈ (p :: t).map Prod.fst := pickLoop_mem _ _ _ _ ha
    rw [← hw, weightedList_map_fst] at hmem
    have hfc := hmem
    rw [filterCandidates, List.mem_filter] at hmem
    obtain ⟨hcat, hpred⟩ := hmem
    simp only [decide_eq_true_eq, Bool.and_eq_true] at hpred
    obtain ⟨hage, hgen, hdev⟩ := hpred
    simp only [Prod.mk.injEq] at htup
    obtain ⟨h1, h2, h3, h4⟩ := htup
    refine ⟨a, hfc, hcat, h1, h2, h3, h4, ?_, ?_, hdev⟩
    · show lowerStr a.age_range = lowerStr age_range
      rw [hage, lowerStr_idem]
    · show lowerStr a.gender = lowerStr gender
      rw [hgen, lowerStr_idem]

/-- Witness for C1: the mixed-case event (18-29, FeMale) on a one-row
catalog returns exactly the stored lowercase row. -/
theorem picked_asset_matches_event_filter_witness :
    ∃ a ∈ filterCandidates sampleCatalog age1829 femaleMixedCase devStr,
      a ∈ sampleCatalog ∧ a.media_id = 1 ∧ a.customer_id = "c" ∧ a.file_path = "a.jpg" ∧
      a.media_type = "image/jpg" ∧ caseInsensitiveEq a.age_range age1829 ∧
      caseInsensitiveEq a.gender femaleMixedCase ∧ a.device_id = devStr :=
  picked_asset_matches_event_filter sampleCatalog [] devStr 8 0 age1829 femaleMixedCase
    happyStr 0 1 ("c") ("a.jpg") ("image/jpg") (by with_unfolding_all decide)

/-- C2: the weighted draw is a single cumulative-sum scan over the scored
candidate list in catalog order, parameterised by the one random value `r`
(the embedding of the single `random.uniform(0, total)` call): it returns
`a` exactly when `a` sits at the first index whose cumulative final-score
sum reaches `r`. -/
theorem selection_is_first_index_reaching_r
    (catalog : List MediaAsset) (history : List PlaybackRecord)
    (deviceId : String) (hour : Nat) (now : ℚ) (age_range gender mood : String)
    (r : ℚ) (a : MediaAsset) :
    pickLoop (weightedList catalog age_range gender mood deviceId hour now history) 0 r
        = some a ↔
      ∃ i, ((weightedList catalog age_range gender mood deviceId hour now history).map
          Prod.fst)[i]? = some a ∧
        r ≤ cumScore (weightedList catalog age_range gender mood deviceId hour now history) i ∧
        ∀ j < i,
          cumScore (weightedList catalog age_range gender mood deviceId hour now history) j
            < r := by
  have h := pickLoop_first_cumulative
    (weightedList catalog age_range gender mood deviceId hour now history) 0 r a
  simpa using h

/-- C3: every entry of the scored candidate list carries a final score
of at least 1, so every eligible candidate has nonzero draw weight. -/
theorem every_candidate_final_score_ge_one
    (catalog : List MediaAsset) (age_range gender mood deviceId : String)
    (hour : Nat) (now : ℚ) (history : List PlaybackRecord) (p : MediaAsset × ℚ)
    (hp : p ∈ weightedList catalog age_range gender mood deviceId hour now history) :
    1 ≤ p.2 := by
  simp only [weightedList, List.mem_map] at hp
  obtain ⟨a, ha, rfl⟩ := hp
  exact le_max_right _ _

/-- Witness for C3: the fixture candidate enters the weighted list with
score 5, and 1 ≤ 5. -/
theorem every_candidate_final_score_ge_one_witness :
    (sampleAsset, (5:ℚ)) ∈ weightedList sampleCatalog age1829 femaleMixedCase happyStr
      devStr 8 0 [] ∧ (1:ℚ) ≤ (5:ℚ) :=
  ⟨by with_unfolding_all decide,
    every_candidate_final_score_ge_one sampleCatalog age1829 femaleMixedCase happyStr
      devStr 8 0 [] (sampleAsset, (5:ℚ)) (by with_unfolding_all decide)⟩

/-- C4 counterexample: with profit score 1 and no bonuses, the 1.0 floor
clamps both the recently-played candidate (record 2 minutes old) and the
no-history candidate to a final score of exactly 1, so the recently-played
candidate's final score is NOT strictly lower. -/
theorem recent_play_clamped_scores_equal :
    finalScore 5 (get_time_of_day_range 8) happyStr floorHistory floorAsset
      = finalScore 5 (get_time_of_day_range 8) happyStr [] floorAsset ∧
    ¬ finalScore 5 (get_time_of_day_range 8) happyStr floorHistory floorAsset
        < finalScore 5 (get_time_of_day_range 8) happyStr [] floorAsset := by
  with_unfolding_all decide

/-- C4 (amended): a candidate whose most recent playback record is less
than 5 minutes old scores strictly lower than an otherwise-identical
candidate with no play history, PROVIDED the shared pre-recency score
exceeds the 1.0 floor; otherwise the `max(score, 1.0)` clamp can make the
two final scores equal. -/
theorem recent_play_scores_strictly_lower
    (now t : ℚ) (tod mood : String) (a : MediaAsset) (h1 h2 : List PlaybackRecord)
    (hl1 : get_last_display_time h1 a.media_id = some t)
    (hrecent : now - t < 5)
    (hl2 : get_last_display_time h2 a.media_id = none)
    (hbase : 1 < preScore tod mood a) :
    finalScore now tod mood h1 a < finalScore now tod mood h2 a := by
  simp only [finalScore, recencyAdjust, hl1, hl2]
  rw [if_pos hrecent]
  rw [max_eq_left (le_of_lt hbase)]
  exact max_lt (by linarith) hbase

/-- Witness for C4 (amended): profit 10, record 2 minutes old at `now = 5`
versus empty history: 5 < 10. -/
theorem recent_play_scores_strictly_lower_witness :
    get_last_display_time richHistory richAsset.media_id = some 3 ∧
    (5:ℚ) - 3 < 5 ∧
    get_last_display_time [] richAsset.media_id = none ∧
    1 < preScore (get_time_of_day_range 8) happyStr richAsset ∧
    finalScore 5 (get_time_of_day_range 8) happyStr richHistory richAsset
      < finalScore 5 (get_time_of_day_range 8) happyStr [] richAsset :=
  ⟨by with_unfolding_all decide, by with_unfolding_all decide,
   by with_unfolding_all decide, by with_unfolding_all decide,
   recent_play_scores_strictly_lower 5 3 (get_time_of_day_range 8) happyStr richAsset
     richHistory [] (by with_unfolding_all decide) (by with_unfolding_all decide)
     (by with_unfolding_all decide) (by with_unfolding_all decide)⟩

/-- C5: one tick of `update_fade` either leaves the stage unchanged or
moves it to its single successor in the cycle
Idle → FadingIn → Holding → FadingOut → Idle; no other edge exists, from
any state. -/
theorem stage_transitions_linear (st : DisplayState) (elapsed : ℚ)
    (videoAtEnd loadOk : Bool) :
    (update_fade st elapsed videoAtEnd loadOk).stage = st.stage ∨
    (update_fade st elapsed videoAtEnd loadOk).stage = st.stage.succ := by
  obtain ⟨stage, queue, iv, hm⟩ := st
  cases stage with
  | idle =>
    cases queue with
    | nil => exact Or.inl rfl
    | cons e rest =>
      cases loadOk with
      | true => exact Or.inr (by simp [update_fade, start_new_ad, AdState.succ])
      | false => exact Or.inl (by simp [update_fade, start_new_ad])
  | fadingIn =>
    by_cases h : elapsed ≥ FADE_IN_DURATION
    · exact Or.inr (by simp [update_fade, h, AdState.succ])
    · exact Or.inl (by simp [update_fade, h])
  | holding =>
    cases iv with
    | true =>
      cases videoAtEnd with
      | true => exact Or.inr (by simp [update_fade, AdState.succ])
      | false => exact Or.inl (by simp [update_fade])
    | false =>
      by_cases h : elapsed ≥ HOLD_DURATION
      · exact Or.inr (by simp [update_fade, h, AdState.succ])
      · exact Or.inl (by simp [update_fade, h])
  | fadingOut =>
    by_cases h : elapsed ≥ FADE_OUT_DURATION
    · exact Or.inr (by simp [update_fade, h, AdState.succ])
    · exact Or.inl (by simp [update_fade, h])

/-- C6: any sequence of enqueues starting from the empty queue keeps the
queue length at most the capacity 5, and an enqueue arriving at a full
queue returns the queue unchanged (the new entry is rejected, lengths and
order preserved). -/
theorem ad_queue_never_exceeds_capacity (es q : List AdEntry) (e : AdEntry) :
    (es.foldl enqueueAd []).length ≤ MAX_QUEUE_SIZE ∧
    (q.length = MAX_QUEUE_SIZE → enqueueAd q e = q) := by
  constructor
  · exact foldl_enqueueAd_length_le es [] (by simp)
  · intro hq
    unfold enqueueAd
    rw [if_neg]
    omega

/-- Witness for C6: pushing 6 entries leaves at most 5, and an enqueue at
the full 5-entry queue is the identity. -/
theorem ad_queue_never_exceeds_capacity_witness :
    (sixEntries.foldl enqueueAd []).length ≤ MAX_QUEUE_SIZE ∧
    fullQueue.length = MAX_QUEUE_SIZE ∧
    enqueueAd fullQueue sampleEntry = fullQueue :=
  ⟨(ad_queue_never_exceeds_capacity sixEntries fullQueue sampleEntry).1,
   by decide,
   (ad_queue_never_exceeds_capacity sixEntries fullQueue sampleEntry).2 (by decide)⟩

/-- C7 (refuted): `handle_client_connection` extracts the payload with
`data.split(":")[-1]`, the LAST colon-separated segment, not everything
after the first colon: on `SHOW_IMAGE:/media/a:b.jpg` the code passes on
`b.jpg` while the payload after the first colon is `/media/a:b.jpg`. -/
theorem payload_split_takes_last_segment :
    parseCommandPath colonCmd = colonPathLast ∧
    specPayloadAfterFirstColon colonCmd = colonPathFull ∧
    ¬ parseCommandPath colonCmd = specPayloadAfterFirstColon colonCmd := by
  decide

/-- C8 (refuted): the `QUIT` branch of `handle_client_connection` performs
exactly `pygame.quit()` then `sys.exit(0)` and never releases an open
video capture; the release only happens on the `main_loop` shutdown path,
which the network `QUIT` command does not run. -/
theorem quit_branch_releases_no_video :
    handle_client_connection QUIT_CMD 0 (fun _ => false)
      = [DisplayAction.pygameQuit, DisplayAction.sysExit] ∧
    DisplayAction.releaseVideo ∉ handle_client_connection QUIT_CMD 0 (fun _ => false) ∧
    DisplayAction.releaseVideo ∈ main_loop_shutdown true true := by
  decide

/-- C9 (refuted): an absolute path outside the media root passes
`store_media`'s string-prefix containment check, is stored as a `..`
relative path, resolves outside the media root, and `play_media` — which
checks only existence — dispatches it anyway. -/
theorem escaping_path_stored_and_dispatched :
    store_media_accepts evilAbsPath = true ∧
    store_media_rel evilAbsPath = evilRelPath ∧
    escapesRoot evilRelPath = true ∧
    play_media [evilAsset] [] devStr 8 0 age1829 femaleStr happyStr 0 (fun _ => true)
      = some evilDispatch := by
  with_unfolding_all decide

/-- C10: for a nonempty scored candidate list and any draw
`r ∈ [0, total]`, `pick_weighted_media` returns a candidate — the
fall-through `return None` after the loop is unreachable, because the last
cumulative sum equals the total. -/
theorem weighted_draw_never_falls_through
    (catalog : List MediaAsset) (history : List PlaybackRecord)
    (deviceId : String) (hour : Nat) (now : ℚ) (age_range gender mood : String) (r : ℚ)
    (hne : weightedList catalog age_range gender mood deviceId hour now history ≠ [])
    (h0 : 0 ≤ r)
    (hr : r ≤ totalScore (weightedList catalog age_range gender mood deviceId hour now
      history)) :
    (pick_weighted_media catalog history deviceId hour now age_range gender mood r).isSome
      := by
  cases hw : weightedList catalog age_range gender mood deviceId hour now history with
  | nil => exact absurd hw hne
  | cons p t =>
    rw [hw] at hr
    simp only [pick_weighted_media, hw, Option.isSome_map']
    apply pickLoop_isSome _ _ _ (by simp)
    rw [zero_add]
    exact hr

/-- Witness for C10: the one-candidate fixture with `r = 2 ∈ [0, 5]`
returns a candidate. -/
theorem weighted_draw_never_falls_through_witness :
    weightedList sampleCatalog age1829 femaleStr happyStr devStr 8 0 [] ≠ [] ∧
    (0:ℚ) ≤ 2 ∧
    (2:ℚ) ≤ totalScore (weightedList sampleCatalog age1829 femaleStr happyStr devStr 8 0 []) ∧
    (pick_weighted_media sampleCatalog [] devStr 8 0 age1829 femaleStr happyStr 2).isSome :=
  ⟨by with_unfolding_all decide, by with_unfolding_all decide,
   by with_unfolding_all decide,
   weighted_draw_never_falls_through sampleCatalog [] devStr 8 0 age1829 femaleStr happyStr 2
     (by with_unfolding_all decide) (by with_unfolding_all decide)
     (by with_unfolding_all decide)⟩

end ByteBite
